import Mathlib

/-!
Shallow embedding of the Spanish language adapter of the `num2words_rs`
numeral-to-words engine (`src/lang/es.rs`), together with theorems checking
the natural-language specification against it.

Machine numerals (the crate's arbitrary-precision decimal `BigFloat`) are
modelled by the type `Numeral` below: NaN, both infinities, and finite
decimal values given as a sign, a natural integer part and a list of
fractional decimal digits.  Fallible conversions return `Except Num2Err`.
-/

set_option maxHeartbeats 1000000

namespace EsNum

/-- Modelled from the spec: the crate-level error enumeration (declared outside
`src/`, in the crate root); the variants and their meanings are fixed by §7 of
the spec and by every `Err(...)` site in `src/lang/es.rs`. -/
inductive Num2Err where
  | CannotConvert
  | NegativeOrdinal
  | FloatingOrdinal
  | InfiniteOrdinal
  | NegativeYear
  | FloatingYear
  | InfiniteYear
  deriving DecidableEq, Repr

/-- Negative-decoration styles (`NegativeFlavour` in `es.rs`). -/
inductive NegativeFlavour where
  | Prepended
  | Appended
  | BelowZero
  deriving DecidableEq, Repr

/-- `NegativeFlavour::as_str`. -/
def NegativeFlavour.asStr : NegativeFlavour → String
  | .Prepended => "menos"
  | .Appended => "negativo"
  | .BelowZero => "bajo cero"

/-- Decimal separator word choice (`DecimalChar` in `es.rs`). -/
inductive DecimalChar where
  | Punto
  | Coma
  deriving DecidableEq, Repr

/-- `DecimalChar::to_word`. -/
def DecimalChar.toWord : DecimalChar → String
  | .Punto => "punto"
  | .Coma => "coma"

/-- The `Spanish` configuration struct of `es.rs` (defaults as in Rust's
`Default` derive: `Prepended`, `false`, `Punto`, `false`, `false`). -/
structure Spanish where
  neg_flavour : NegativeFlavour := .Prepended
  prefer_veinte : Bool := false
  decimal_char : DecimalChar := .Punto
  feminine : Bool := false
  plural : Bool := false
  deriving DecidableEq, Repr

/-- The cardinal units table `UNIDADES`. -/
def UNIDADES : List String :=
  ["", "uno", "dos", "tres", "cuatro", "cinco", "seis", "siete", "ocho", "nueve"]

/-- The irregular 10..19 table `DIECIS`. -/
def DIECIS : List String :=
  ["diez", "once", "doce", "trece", "catorce", "quince", "dieciséis",
   "diecisiete", "dieciocho", "diecinueve"]

/-- The tens table `DECENAS`. -/
def DECENAS : List String :=
  ["", "", "veinte", "treinta", "cuarenta", "cincuenta", "sesenta",
   "setenta", "ochenta", "noventa"]

/-- The hundreds table `CENTENAS`. -/
def CENTENAS : List String :=
  ["", "ciento", "doscientos", "trescientos", "cuatrocientos", "quinientos",
   "seiscientos", "setecientos", "ochocientos", "novecientos"]

/-- `MILLAR_SIZE` (length of the scale tables). -/
def MILLAR_SIZE : Nat := 22

/-- The plural scale-name table `MILLARES`. -/
def MILLARES : List String :=
  ["", "mil", "millones", "billones", "trillones", "cuatrillones",
   "quintillones", "sextillones", "septillones", "octillones", "nonillones",
   "decillones", "undecillones", "duodecillones", "tredecillones",
   "cuatrodecillones", "quindeciollones", "sexdecillones",
   "septendecillones", "octodecillones", "novendecillones", "vigintillones"]

/-- The singular scale-name table `MILLAR`. -/
def MILLAR : List String :=
  ["", "mil", "millón", "billón", "trillón", "cuatrillón", "quintillón",
   "sextillón", "septillón", "octillón", "nonillón", "decillón",
   "undecillón", "duodecillón", "tredecillón", "cuatrodecillón",
   "quindeciollón", "sexdecillón", "septendecillón", "octodecillón",
   "novendecillón", "vigintillón"]

/-- Ordinal stem tables (`mod ordinal` in `es.rs`); gender suffix is appended
at the call site. -/
def ordUNIDADES : List String :=
  ["", "primer", "segund", "tercer", "cuart", "quint", "sext", "séptim",
   "octav", "noven"]

/-- `ordinal::DECENAS`. -/
def ordDECENAS : List String :=
  ["", "", "vigésim", "trigésim", "cuadragésim", "quincuagésim", "sexagésim",
   "septuagésim", "octogésim", "nonagésim"]

/-- `ordinal::DIECIS`. -/
def ordDIECIS : List String :=
  ["décim", "undécim", "duodécim", "decimotercer", "decimocuart",
   "decimoquint", "decimosext", "decimoséptim", "decimooctav", "decimonoven"]

/-- `ordinal::CENTENAS`. -/
def ordCENTENAS : List String :=
  ["", "centésim", "ducentésim", "tricentésim", "cuadringentésim",
   "quingentésim", "sexcentésim", "septingentésim", "octingentésim",
   "noningentésim"]

/-- `ordinal::MILLARES`. -/
def ordMILLARES : List String :=
  ["", "milésim", "millonésim", "billonésim", "trillonésim",
   "cuatrillonésim", "quintillonésim", "sextillonésim", "septillonésim",
   "octillonésim", "nonillonésim", "decillonésim", "undecillonésim",
   "duodecillonésim", "tredecillonésim", "cuatrodecillonésim",
   "quindeciollonésim", "sexdecillonésim", "septendecillonésim",
   "octodecillonésim", "novendecillonésim", "vigintillonésim"]

/-- Fuel-driven worker for `split_thousands`; the fuel argument makes the
recursion structural so that concrete values reduce in the kernel. -/
def splitThousandsAux : Nat → Nat → List Nat
  | 0, _ => []
  | f + 1, n => if n = 0 then [] else n % 1000 :: splitThousandsAux f (n / 1000)

/-- Unfolding equation for the worker. -/
theorem splitThousandsAux_succ (f n : Nat) :
    splitThousandsAux (f + 1) n =
      if n = 0 then [] else n % 1000 :: splitThousandsAux f (n / 1000) := rfl

/-- `Spanish::split_thousands`: decompose a non-negative integer magnitude
into low-endian base-1000 groups; zero yields the empty list.  (In Rust the
loop runs on the `BigFloat` value; the magnitude is a `Nat` here.  Negative
inputs pass through `to_u64`, which yields the magnitude of each group, so
callers feed `Int.natAbs`.) -/
def split_thousands (n : Nat) : List Nat :=
  splitThousandsAux n n

/-- The scale-table index consulted at triplet position `i`
(`let milliard_index = if i % 2 == 0 { i / 2 + 1 } else { 1 }`). -/
def milliardIndex (i : Nat) : Nat :=
  if i % 2 = 0 then i / 2 + 1 else 1

/-- Rust's `Vec<String>::join(" ")`. -/
def joinSp : List String → String
  | [] => ""
  | [w] => w
  | w :: ws => w ++ " " ++ joinSp ws

/-- The final assembly step of `int_to_cardinal` / `to_ordinal`:
`words.into_iter().filter(|word| !word.is_empty()).collect::<Vec<_>>().join(" ")`. -/
def joinWords (ws : List String) : String :=
  joinSp (ws.filter (fun w => !(w == "")))

/-- `Spanish::flavourize_with_negative`: insert the decoration word at the
front for `Prepended`, push it at the back otherwise. -/
def flavourize (flavour : NegativeFlavour) (ws : List String) : List String :=
  match flavour with
  | .Prepended => flavour.asStr :: ws
  | .Appended => ws ++ [flavour.asStr]
  | .BelowZero => ws ++ [flavour.asStr]

/-- The sub-thousand words pushed for the triplet `t` at position `i` inside
the `int_to_cardinal` loop of `es.rs` (hundreds handling, then the
tens/units block with its irregular forms). -/
def subThousandWords (es : Spanish) (i t : Nat) : List String :=
  let hundreds := t / 100 % 10
  let tens := t / 10 % 10
  let units := t % 10
  let hw : List String :=
    if 0 < hundreds then
      [if t = 100 then "cien" else CENTENAS.getD hundreds ""]
    else []
  let tw : List String :=
    if tens ≠ 0 ∨ units ≠ 0 then
      let uw :=
        if t = 1 ∧ 0 < i then (if i % 2 = 0 then "un" else "")
        else UNIDADES.getD units ""
      [if tens = 0 then uw
       else if tens = 1 then DIECIS.getD units ""
       else if tens = 2 ∧ (es.prefer_veinte ∧ units ≠ 0) then
         "veinte y " ++ (if units = 1 ∧ i ≠ 0 then "un" else uw)
       else if tens = 2 then
         (if units = 0 then DECENAS.getD tens ""
          else if units = 1 ∧ i ≠ 0 then "veintiún"
          else "veinti" ++ uw)
       else
         (if units = 0 then DECENAS.getD tens ""
          else DECENAS.getD tens "" ++ " y " ++ uw)]
    else []
  hw ++ tw

/-- One iteration of the `int_to_cardinal` loop at triplet position `i`:
the sub-thousand words followed by, for `i > 0`, the scale name chosen by
`plural = triplet > 1 || last_triplet > 0` — or the overflow error when the
scale index leaves the table. -/
def cardinalChunk (es : Spanish) (ts : List Nat) (i : Nat) :
    Except Num2Err (List String) :=
  let t := ts.getD i 0
  let sub := subThousandWords es i t
  if i = 0 then .ok sub
  else
    let mi := milliardIndex i
    let lastT := ts.getD (i + 1) 0
    if t ≠ 0 ∨ (lastT ≠ 0 ∧ 1 < mi) then
      if MILLAR_SIZE - 1 < mi then .error .CannotConvert
      else
        .ok (sub ++ [if 1 < t ∨ 0 < lastT
                     then MILLARES.getD mi "" else MILLAR.getD mi ""])
    else .ok sub

/-- The `int_to_cardinal` loop over triplet positions `k-1, …, 0` (the Rust
iteration is `enumerate().rev()`, most significant group first). -/
def cardinalWords (es : Spanish) (ts : List Nat) : Nat → Except Num2Err (List String)
  | 0 => .ok []
  | k + 1 => do
    let c ← cardinalChunk es ts k
    let rest ← cardinalWords es ts k
    pure (c ++ rest)

/-- `Spanish::int_to_cardinal` on an integer-valued numeral.  (The Rust
function takes the `BigFloat` itself and starts by rejecting fractional,
NaN and infinite values; all its call sites pass finite integer values, which
are modelled as `Int` here, so that guard is vacuous.) -/
def int_to_cardinal (es : Spanish) (v : Int) : Except Num2Err String :=
  if v = 0 then .ok "cero"
  else do
    let ts := split_thousands v.natAbs
    let ws ← cardinalWords es ts ts.length
    let ws := if v < 0 then flavourize es.neg_flavour ws else ws
    .ok (joinWords ws)

/-- A finite decimal value of the numeric source: a sign, the integer part's
magnitude, and the fractional decimal digits (most significant first).  A
well-formed value has every digit below 10; `decimal` values coming from the
crate's `BigFloat` always satisfy this. -/
structure Decimal where
  neg : Bool
  ip : Nat
  fd : List Nat
  deriving DecidableEq, Repr

/-- The integer part as a signed integer (`BigFloat::int`, truncation toward
zero). -/
def Decimal.intVal (d : Decimal) : Int :=
  if d.neg then -(d.ip : Int) else (d.ip : Int)

/-- Whether a fractional digit list denotes the zero fraction
(`frac().is_zero()`). -/
def fracZero (fd : List Nat) : Bool :=
  fd.all (fun k => k = 0)

/-- The numeric source (`BigFloat`): NaN, the two infinities, or a finite
decimal value. -/
inductive Numeral where
  | nan
  | posInf
  | negInf
  | fin (d : Decimal)
  deriving DecidableEq, Repr

/-- `BigFloat::is_negative` (sign flag; only consulted after the NaN test in
every register). -/
def Numeral.isNegative : Numeral → Bool
  | .nan => false
  | .posInf => false
  | .negInf => true
  | .fin d => d.neg

/-- `BigFloat::inv_sign` / unary negation of the numeral. -/
def Numeral.negate : Numeral → Numeral
  | .nan => .nan
  | .posInf => .negInf
  | .negInf => .posInf
  | .fin d => .fin { d with neg := !d.neg }

/-- A non-negative integer as a numeral. -/
def Numeral.ofNat (n : Nat) : Numeral :=
  .fin { neg := false, ip := n, fd := [] }

/-- `Spanish::inf_to_cardinal` (the Rust code builds the negative forms with
a `replace` on a placeholder; the results are written out directly here,
including the `BelowZero` style degrading to `menos infinito`). -/
def inf_to_cardinal (es : Spanish) : Numeral → Except Num2Err String
  | .posInf => .ok "infinito"
  | .negInf =>
    .ok (match es.neg_flavour with
         | .Prepended => "menos infinito"
         | .Appended => "infinito negativo"
         | .BelowZero => "menos infinito")
  | _ => .error .CannotConvert

/-- The fractional-digit loop of `float_to_cardinal`: while the remaining
fraction is nonzero, emit the next digit's word (`cero` for 0, else the
units word) and continue with the remaining digits. -/
def fracWords : List Nat → List String
  | [] => []
  | k :: rest =>
    if fracZero (k :: rest) then []
    else (if k = 0 then "cero" else UNIDADES.getD k "") :: fracWords rest

/-- `Spanish::float_to_cardinal`: integer part of the absolute value, then
the decimal-separator word, then the fraction digit by digit; the negative
decoration is applied to the word list at the end.  Note this path joins
with spaces without filtering empty words. -/
def float_to_cardinal (es : Spanish) (d : Decimal) : Except Num2Err String := do
  let intWord ← int_to_cardinal es (d.ip : Int)
  let seps : List String := if fracZero d.fd then [] else [es.decimal_char.toWord]
  let ws := intWord :: (seps ++ fracWords d.fd)
  let ws := if d.neg then flavourize es.neg_flavour ws else ws
  .ok (joinSp ws)

/-- `Spanish::to_cardinal` (the `Language` impl): NaN is unconvertible,
infinities take the fixed-phrase path, integer values the integer path,
fractional values the float path. -/
def to_cardinal (es : Spanish) : Numeral → Except Num2Err String
  | .nan => .error .CannotConvert
  | .posInf => inf_to_cardinal es .posInf
  | .negInf => inf_to_cardinal es .negInf
  | .fin d =>
    if fracZero d.fd then int_to_cardinal es d.intVal
    else float_to_cardinal es d

/-- The gender/number agreement suffix chosen by `to_ordinal`'s `gender`
closure from the configuration. -/
def genderSuffix (es : Spanish) : String :=
  match es.plural, es.feminine with
  | true, true => "as"
  | true, false => "os"
  | false, true => "a"
  | false, false => "o"

/-- Rust's `str::replace('é', "e")` as invoked by `to_ordinal`'s `decenas`
closure: every occurrence of the single character `é` becomes `e`, which is a
character map. -/
def replaceAccentE (s : String) : String :=
  ⟨s.data.map (fun c => if c = 'é' then 'e' else c)⟩

/-- The index-0 block of `to_ordinal`: the sub-thousand ordinal decision tree
with the agreement suffix appended stem by stem (the `é` of `vigésim` is
lowered to `e` when a unit sticks to it). -/
def ordinalZeroWords (es : Spanish) (t : Nat) : List String :=
  let g := genderSuffix es
  let hundreds := t / 100 % 10
  let tens := t / 10 % 10
  let units := t % 10
  let hw : List String :=
    if 0 < hundreds then [ordCENTENAS.getD hundreds "" ++ g] else []
  let tw : List String :=
    if tens ≠ 0 ∨ units ≠ 0 then
      let uw := ordUNIDADES.getD units ""
      let dec :=
        if (1 ≤ units ∧ units ≤ 9) ∧ tens = 2 then
          replaceAccentE (ordDECENAS.getD tens "")
        else ordDECENAS.getD tens ""
      [if tens = 0 then uw ++ g
       else if tens = 1 then ordDIECIS.getD units "" ++ g
       else if tens = 2 ∧ units ≠ 0 then dec ++ g ++ uw ++ g
       else (if units = 0 then dec else dec ++ g ++ " " ++ uw) ++ g]
    else []
  hw ++ tw

/-- The shape shared by `to_ordinal`'s `triplet_word` and its
`get_last_triplet` closure: the cardinal of the group, with a trailing space
for values of 10 and above, fused bare for 2..=9, and empty for 0 and 1. -/
def fusedCardinal (es : Spanish) (v : Nat) : Except Num2Err String :=
  if 10 ≤ v then (int_to_cardinal es (v : Int)).map (· ++ " ")
  else if 2 ≤ v then int_to_cardinal es (v : Int)
  else .ok ""

/-- One iteration of the `to_ordinal` loop at triplet position `i`: the
index-0 ordinal block, or — for `i > 0` — the scale word with the
cross-scale fusion (`thousand_of_milliard` then `triplet_word` then the
ordinal scale stem and the agreement suffix), thousand-like positions above
index 1 being skipped because they are folded into the next named unit.
(The Rust `(false, true, true)` match arm is `unreachable!` — it is guarded
out by that skip — and is absorbed into the empty default here.) -/
def ordinalChunk (es : Spanish) (ts : List Nat) (i : Nat) :
    Except Num2Err (List String) :=
  if i = 0 then .ok (ordinalZeroWords es (ts.getD 0 0))
  else
    let t := ts.getD i 0
    let mi := milliardIndex i
    let lastT := ts.getD (i + 1) 0
    if t ≠ 0 ∨ (lastT ≠ 0 ∧ 1 < mi) then
      if MILLAR_SIZE - 1 < mi then .error .CannotConvert
      else if mi = 1 ∧ 1 < i then .ok []
      else do
        let tw ← fusedCardinal es t
        let thWord ←
          if mi ≠ 1 ∧ 1 < i ∧ 0 < lastT then
            (fusedCardinal es lastT).map (· ++ "mil")
          else .ok ""
        .ok [thWord ++ tw ++ ordMILLARES.getD mi "" ++ genderSuffix es]
    else .ok []

/-- The `to_ordinal` loop over triplet positions `k-1, …, 0`. -/
def ordinalWords (es : Spanish) (ts : List Nat) : Nat → Except Num2Err (List String)
  | 0 => .ok []
  | k + 1 => do
    let c ← ordinalChunk es ts k
    let rest ← ordinalWords es ts k
    pure (c ++ rest)

/-- `Spanish::to_ordinal`: the register preconditions in source order (NaN,
infinite, negative, fractional), then the ordinal assembly. -/
def to_ordinal (es : Spanish) : Numeral → Except Num2Err String
  | .nan => .error .CannotConvert
  | .posInf => .error .InfiniteOrdinal
  | .negInf => .error .InfiniteOrdinal
  | .fin d =>
    if d.neg then .error .NegativeOrdinal
    else if ¬ fracZero d.fd then .error .FloatingOrdinal
    else do
      let ts := split_thousands d.ip
      let ws ← ordinalWords es ts ts.length
      .ok (joinWords ws)

/-- The largest value representable in Rust's `i128`. -/
def i128Max : Nat := 2 ^ 127 - 1

/-- `Spanish::to_ordinal_num`: the same preconditions as `to_ordinal`, then
the decimal digit string with the gendered ordinal marker.  Modelled from the
spec for the external numeric source: `BigFloat::to_i128` yields `None`
exactly when the value lies outside the `i128` range (the input is known
non-negative and integral here, so only the upper bound can be exceeded),
and that `None` is turned into `CannotConvert`. -/
def to_ordinal_num (es : Spanish) : Numeral → Except Num2Err String
  | .nan => .error .CannotConvert
  | .posInf => .error .InfiniteOrdinal
  | .negInf => .error .InfiniteOrdinal
  | .fin d =>
    if d.neg then .error .NegativeOrdinal
    else if ¬ fracZero d.fd then .error .FloatingOrdinal
    else if i128Max < d.ip then .error .CannotConvert
    else .ok (toString d.ip ++ (if es.feminine then "ª" else "º"))

/-- `Spanish::to_year`: NaN, infinite, fractional and zero are rejected in
source order; a negative year is converted on its inverted sign and suffixed
with the before-era phrase. -/
def to_year (es : Spanish) : Numeral → Except Num2Err String
  | .nan => .error .CannotConvert
  | .posInf => .error .InfiniteYear
  | .negInf => .error .InfiniteYear
  | .fin d =>
    if ¬ fracZero d.fd then .error .FloatingYear
    else if d.ip = 0 then .error .CannotConvert
    else do
      let yearWord ← int_to_cardinal es (d.ip : Int)
      .ok (yearWord ++ (if d.neg then " a. C." else ""))

/-- Modelled from the spec: the enumerated currency identifiers (the enum is
declared in the crate root, outside `src/`); the constructors are exactly the
arms of the exhaustive `match` in `Spanish::currencies`. -/
inductive Currency where
  | AED | ARS | AUD | BRL | CAD | CHF | CLP | CNY | COP | CRC
  | DINAR | DOLLAR | DZD | EUR | GBP | HKD | IDR | ILS | INR | JPY
  | KRW | KWD | KZT | MXN | MYR | NOK | NZD | PEN | PESO | PHP
  | PLN | QAR | RIYAL | RUB | SAR | SGD | THB | TRY | TWD | UAH
  | USD | UYU | VND | ZAR
  deriving DecidableEq, Repr

/-- `Spanish::currencies`: the unit-name lexical table; the Rust code fills a
`{}` placeholder with `s` in the plural, which is written out directly here. -/
def currencies (currency : Currency) (plural_form : Bool) : String :=
  let s := if plural_form then "s" else ""
  match currency with
  | .AED => "dirham" ++ s
  | .ARS => "peso" ++ s ++ " argentino" ++ s
  | .AUD => if plural_form then "dólares australianos" else "dólar australiano"
  | .BRL => if plural_form then "reales brasileño" else "real brasileño"
  | .CAD => if plural_form then "dólares canadienses" else "dólar canadiense"
  | .CHF => "franco" ++ s ++ " suizo" ++ s
  | .CLP => "peso" ++ s ++ " chileno" ++ s
  | .CNY => if plural_form then "yuanes" else "yuan"
  | .COP => "peso" ++ s ++ " colombiano" ++ s
  | .CRC => if plural_form then "colones" else "colón"
  | .DINAR => if plural_form then "dinares" else "dinar"
  | .DOLLAR => if plural_form then "dólares" else "dólar"
  | .DZD => if plural_form then "dinares argelinos" else "dinar argelino"
  | .EUR => "euro" ++ s
  | .GBP => "libra" ++ s ++ " esterlina" ++ s
  | .HKD => if plural_form then "dólares de Hong Kong" else "dólar de Hong Kong"
  | .IDR => "rupia" ++ s ++ " indonesia" ++ s
  | .ILS => if plural_form then "séqueles" else "séquel"
  | .INR => "rupia" ++ s
  | .JPY => if plural_form then "yenes" else "yen"
  | .KRW => "won" ++ s
  | .KWD => if plural_form then "dinares kuwaitíes" else "dinar kuwaití"
  | .KZT => "tenge" ++ s
  | .MXN => "peso" ++ s ++ " mexicano" ++ s
  | .MYR => "ringgit" ++ s
  | .NOK => "corona" ++ s ++ " noruega" ++ s
  | .NZD => if plural_form then "dólares neozelandeses" else "dólar neozelandés"
  | .PEN => if plural_form then "soles" else "sol"
  | .PESO => "peso" ++ s
  | .PHP => "peso" ++ s ++ " filipino" ++ s
  | .PLN => "zloty" ++ s
  | .QAR => if plural_form then "riyales cataríes" else "riyal catarí"
  | .RIYAL => if plural_form then "riyales" else "riyal"
  | .RUB => "rublo" ++ s ++ " ruso" ++ s
  | .SAR => if plural_form then "riyales saudíes" else "riyal saudí"
  | .SGD => if plural_form then "dólares singapurenses" else "dólar singapurense"
  | .THB => if plural_form then "bahts tailandeses" else "baht tailandés"
  | .TRY => "lira" ++ s
  | .TWD => if plural_form then "dólares taiwaneses" else "dólar taiwanes"
  | .UAH => "grivna" ++ s
  | .USD => if plural_form then "dólares estadounidenses" else "dólar estadounidense"
  | .UYU => "peso" ++ s ++ " uruguayo" ++ s
  | .VND => "dong" ++ s
  | .ZAR => "rand" ++ s ++ " sudafricano" ++ s

/-- Modelled from the spec: `Spanish::cents` delegates to
`Currency::default_subunit_string("centavo{}", plural)` (declared outside
`src/`); per the spec's Currency Composer and the doctests it produces the
pluralized subunit name `centavo`/`centavos`. -/
def centsName (_currency : Currency) (plural_form : Bool) : String :=
  if plural_form then "centavos" else "centavo"

/-- `str::ends_with`, phrased on the character list so that it evaluates. -/
def strEndsWith (s suffix : String) : Bool :=
  suffix.data.isSuffixOf s.data

/-- Removal of the last `n` characters of `s` (the Rust code slices bytes,
but the removed suffixes here are ASCII, where bytes and characters agree). -/
def strDropRight (s : String) (n : Nat) : String :=
  ⟨s.data.take (s.data.length - n)⟩

/-- The `strip_uno_into_un` closure of `to_currency`: a cardinal ending in
the bare `uno` is contracted (`...iuno` to `...iún`, plain `uno` to `un`). -/
def strip_uno_into_un (s : String) : String :=
  if strEndsWith s "iuno" then (strDropRight s 3) ++ "ún"
  else if strEndsWith s "uno" then strDropRight s 1
  else s

/-- The integer branch of `to_currency` (also reached by its recursive call
on the integral part, whose fraction is zero by construction): the stripped
cardinal followed by the unit name pluralized by `num != 1`. -/
def intCurrency (es : Spanish) (v : Int) (currency : Currency) :
    Except Num2Err String := do
  let cardinal ← int_to_cardinal es v
  .ok (strip_uno_into_un cardinal ++ " " ++ currencies currency (v != 1))

/-- `(num * 100).int()` on the decimal model: two digits of the fraction are
shifted into the integer part, truncating toward zero (exact for well-formed
digit lists, whose digits are below 10). -/
def mul100int (d : Decimal) : Int :=
  let m : Nat := 100 * d.ip + 10 * d.fd.getD 0 0 + d.fd.getD 1 0
  if d.neg then -(m : Int) else (m : Int)

/-- `Spanish::to_currency`.  `BigFloat::rem` is a truncated remainder (the
sign follows the dividend), hence `Int.tmod`; the infinity branch reproduces
the Rust `replace` result verbatim (`inf + "de {}"`). -/
def to_currency (es : Spanish) (x : Numeral) (currency : Currency) :
    Except Num2Err String :=
  match x with
  | .nan => .error .CannotConvert
  | .posInf | .negInf => do
    let cw := currencies currency true
    let iw ← inf_to_cardinal es x
    .ok (iw ++ "de " ++ cw)
  | .fin d =>
    if fracZero d.fd then intCurrency es d.intVal currency
    else do
      let cents : Int := Int.tmod (mul100int d) 100
      let intWords ← intCurrency es d.intVal currency
      let centWords ← (int_to_cardinal es cents).map strip_uno_into_un
      let centsSuffix := centsName currency (cents != 1)
      if cents = 0 then .ok intWords
      else if d.ip = 0 then .ok (centWords ++ " " ++ centsSuffix)
      else .ok (intWords ++ " con " ++ centWords ++ " " ++ centsSuffix)

/-! ### Structural lemmas about the group decomposer -/

theorem splitThousandsAux_congr :
    ∀ f₁ {f₂ n : Nat}, n ≤ f₁ → n ≤ f₂ →
      splitThousandsAux f₁ n = splitThousandsAux f₂ n := by
  intro f₁
  induction f₁ with
  | zero =>
    intro f₂ n h₁ _
    interval_cases n
    cases f₂ <;> rfl
  | succ f ih =>
    intro f₂ n h₁ h₂
    by_cases hn : n = 0
    · subst hn; cases f₂ <;> rfl
    · obtain ⟨g, rfl⟩ : ∃ g, f₂ = g + 1 := ⟨f₂ - 1, by omega⟩
      have hlt : n / 1000 < n := Nat.div_lt_self (by omega) (by omega)
      simp only [splitThousandsAux_succ, if_neg hn]
      exact congrArg _ (ih (by omega) (by omega))

theorem split_thousands_eq (n : Nat) :
    split_thousands n =
      if n = 0 then [] else n % 1000 :: split_thousands (n / 1000) := by
  by_cases hn : n = 0
  · subst hn; rfl
  · have hlt : n / 1000 < n := Nat.div_lt_self (by omega) (by omega)
    obtain ⟨m, rfl⟩ : ∃ m, n = m + 1 := ⟨n - 1, by omega⟩
    simp only [split_thousands, splitThousandsAux_succ, if_neg hn]
    exact congrArg _ (splitThousandsAux_congr m (by omega) (by omega))

theorem split_thousands_getD_lt (n : Nat) :
    ∀ i, (split_thousands n).getD i 0 < 1000 := by
  induction n using Nat.strong_induction_on with
  | _ n ih =>
    intro i
    rw [split_thousands_eq]
    by_cases hn : n = 0
    · simp [hn]
    · have hlt : n / 1000 < n := Nat.div_lt_self (by omega) (by omega)
      simp only [if_neg hn]
      cases i with
      | zero => simpa using Nat.mod_lt n (by omega)
      | succ j => simpa using ih _ hlt j

theorem split_thousands_length_le (k : Nat) :
    ∀ n, (split_thousands n).length ≤ k ↔ n < 1000 ^ k := by
  induction k with
  | zero =>
    intro n
    rw [split_thousands_eq]
    by_cases hn : n = 0
    · simp [hn]
    · simp only [if_neg hn, List.length_cons, pow_zero]
      omega
  | succ k ih =>
    intro n
    rw [split_thousands_eq]
    by_cases hn : n = 0
    · subst hn
      have hpow : (0 : Nat) < 1000 ^ (k + 1) := Nat.pos_pow_of_pos _ (by omega)
      simp [hpow]
    · simp only [if_neg hn, List.length_cons, Nat.add_le_add_iff_right, ih,
        pow_succ]
      rw [Nat.div_lt_iff_lt_mul (by omega : 0 < 1000)]

theorem split_thousands_last_ne (n : Nat) (hn : n ≠ 0) :
    (split_thousands n).getD ((split_thousands n).length - 1) 0 ≠ 0 := by
  induction n using Nat.strong_induction_on with
  | _ n ih =>
    rw [split_thousands_eq, if_neg hn]
    by_cases hq : n / 1000 = 0
    · have hmod : n % 1000 = n := by omega
      simp [split_thousands_eq, hq, hmod, hn]
    · have hlt : n / 1000 < n := Nat.div_lt_self (by omega) (by omega)
      have htail := ih _ hlt hq
      have hlen : (split_thousands (n / 1000)).length ≠ 0 := by
        intro h0
        rw [split_thousands_eq, if_neg hq] at h0
        simp at h0
      simp only [List.length_cons]
      have : (split_thousands (n / 1000)).length - 1 + 1 =
          (split_thousands (n / 1000)).length := by omega
      rw [Nat.add_sub_cancel]
      obtain ⟨m, hm⟩ : ∃ m, (split_thousands (n / 1000)).length = m + 1 :=
        ⟨_, (Nat.succ_pred_eq_of_pos (by omega)).symm⟩
      rw [hm]
      simpa [hm] using htail

/-! ### Totality and overflow of the cardinal assembly -/

theorem except_bind_ok {α β ε : Type _} (a : α) (f : α → Except ε β) :
    (Except.ok a >>= f) = f a := rfl

theorem except_bind_error {α β ε : Type _} (e : ε) (f : α → Except ε β) :
    ((Except.error e : Except ε α) >>= f) = Except.error e := rfl

theorem milliardIndex_le_of_le (i : Nat) (h : i ≤ 41) : milliardIndex i ≤ 21 := by
  unfold milliardIndex
  split <;> omega

theorem cardinalChunk_ok (es : Spanish) (ts : List Nat) (i : Nat)
    (h : milliardIndex i ≤ 21) : ∃ ws, cardinalChunk es ts i = .ok ws := by
  unfold cardinalChunk
  by_cases hi : i = 0
  · exact ⟨_, by rw [if_pos hi]⟩
  · rw [if_neg hi]
    simp only [MILLAR_SIZE]
    split
    · rw [if_neg (by omega)]
      exact ⟨_, rfl⟩
    · exact ⟨_, rfl⟩

theorem cardinalWords_ok (es : Spanish) (ts : List Nat) :
    ∀ k, k ≤ 42 → ∃ ws, cardinalWords es ts k = .ok ws := by
  intro k
  induction k with
  | zero => exact fun _ => ⟨[], rfl⟩
  | succ k ih =>
    intro hk
    obtain ⟨c, hc⟩ := cardinalChunk_ok es ts k (milliardIndex_le_of_le k (by omega))
    obtain ⟨ws, hws⟩ := ih (by omega)
    exact ⟨c ++ ws, by simp [cardinalWords, hc, hws, except_bind_ok]⟩

theorem cardinalChunk_error (es : Spanish) (ts : List Nat) (i : Nat)
    (hi : 42 ≤ i) (hev : i % 2 = 0)
    (h : ts.getD i 0 ≠ 0 ∨ ts.getD (i + 1) 0 ≠ 0) :
    cardinalChunk es ts i = .error .CannotConvert := by
  have hmi : milliardIndex i = i / 2 + 1 := by unfold milliardIndex; rw [if_pos hev]
  have hmi22 : 22 ≤ milliardIndex i := by omega
  have hcond : ts.getD i 0 ≠ 0 ∨ (ts.getD (i + 1) 0 ≠ 0 ∧ 1 < milliardIndex i) := by
    rcases h with h | h
    · exact Or.inl h
    · exact Or.inr ⟨h, by omega⟩
  unfold cardinalChunk
  rw [if_neg (by omega : ¬ i = 0)]
  simp only [MILLAR_SIZE]
  rw [if_pos hcond, if_pos (by omega)]

theorem cardinalWords_error (es : Spanish) (ts : List Nat)
    (hlen : 43 ≤ ts.length)
    (hlast : ts.getD (ts.length - 1) 0 ≠ 0) :
    cardinalWords es ts ts.length = .error .CannotConvert := by
  obtain ⟨k, hk⟩ : ∃ k, ts.length = k + 1 := ⟨ts.length - 1, by omega⟩
  rw [hk]
  rcases Nat.even_or_odd k with he | ho
  · have hk2 : k % 2 = 0 := Nat.even_iff.mp he
    have herr : cardinalChunk es ts k = .error .CannotConvert :=
      cardinalChunk_error es ts k (by omega) hk2 (Or.inl (by simpa [hk] using hlast))
    simp [cardinalWords, herr, except_bind_error]
  · obtain ⟨j, rfl⟩ : ∃ j, k = j + 1 := ⟨k - 1, by omega⟩
    have hj2 : j % 2 = 0 := by
      have := Nat.odd_iff.mp ho
      omega
    have herr : cardinalChunk es ts j = .error .CannotConvert :=
      cardinalChunk_error es ts j (by omega) hj2 (Or.inr (by simpa [hk] using hlast))
    obtain ⟨c, hc⟩ := cardinalChunk_ok es ts (j + 1)
      (by unfold milliardIndex; rw [if_neg (by omega)]; omega)
    simp [cardinalWords, hc, herr, except_bind_ok, except_bind_error]

theorem int_to_cardinal_ok (es : Spanish) (v : Int)
    (h : v.natAbs < 1000 ^ 42) : ∃ s, int_to_cardinal es v = .ok s := by
  by_cases hv : v = 0
  · exact ⟨"cero", by rw [int_to_cardinal, if_pos hv]⟩
  · obtain ⟨ws, hws⟩ := cardinalWords_ok es (split_thousands v.natAbs)
      (split_thousands v.natAbs).length
      ((split_thousands_length_le 42 v.natAbs).mpr h)
    refine ⟨joinWords (if v < 0 then flavourize es.neg_flavour ws else ws), ?_⟩
    rw [int_to_cardinal, if_neg hv]
    simp only [hws, except_bind_ok]

theorem int_to_cardinal_error (es : Spanish) (v : Int)
    (h : 1000 ^ 42 ≤ v.natAbs) : int_to_cardinal es v = .error .CannotConvert := by
  have hpos : 0 < 1000 ^ 42 := Nat.pos_pow_of_pos _ (by omega)
  have hna : v.natAbs ≠ 0 := by
    intro h0
    rw [h0] at h
    omega
  have hv : v ≠ 0 := by
    intro h0
    apply hna
    rw [h0]
    rfl
  have hlen : 43 ≤ (split_thousands v.natAbs).length := by
    by_contra hle
    exact absurd ((split_thousands_length_le 42 v.natAbs).mp (by omega)) (by omega)
  have herr := cardinalWords_error es (split_thousands v.natAbs) hlen
    (split_thousands_last_ne v.natAbs hna)
  rw [int_to_cardinal, if_neg hv]
  simp [herr, except_bind_error]

/-! ### Joining, decoration placement, and the substring relation -/

theorem joinSp_cons (w : String) (l : List String) :
    joinSp (w :: l) = if l = [] then w else w ++ " " ++ joinSp l := by
  cases l <;> rfl

theorem joinSp_cons_cons (a b : String) (l : List String) :
    joinSp (a :: b :: l) = a ++ " " ++ joinSp (b :: l) := rfl

theorem joinSp_append_singleton (l : List String) (v : String) :
    joinSp (l ++ [v]) = if l = [] then v else joinSp l ++ " " ++ v := by
  induction l with
  | nil => rfl
  | cons a t ih =>
    cases t with
    | nil => rfl
    | cons b t' =>
      rw [List.cons_append, List.cons_append, joinSp_cons_cons, ← List.cons_append,
        ih, if_neg (List.cons_ne_nil b t'), if_neg (List.cons_ne_nil a (b :: t')),
        joinSp_cons_cons]
      simp [String.append_assoc]

/-- `s` occurs inside `t` as a contiguous substring. -/
def substrP (s t : String) : Prop :=
  ∃ l r, t = l ++ s ++ r

theorem substrP_refl (s : String) : substrP s s :=
  ⟨"", "", by simp⟩

theorem substrP_empty (t : String) : substrP "" t :=
  ⟨t, "", by simp⟩

theorem substrP_appendL (s p : String) : substrP s (p ++ s) :=
  ⟨p, "", by simp⟩

theorem substrP_appendR (s r : String) : substrP s (s ++ r) :=
  ⟨"", r, by simp⟩

theorem substrP_length_le {s t : String} (h : substrP s t) :
    s.length ≤ t.length := by
  obtain ⟨l, r, rfl⟩ := h
  simp only [String.length_append]
  omega

/-- The decoration always leaves the undecorated join inside the result:
filtered join (integer path). -/
theorem joinWords_flavour_substr (fl : NegativeFlavour) (ws : List String) :
    substrP (joinWords ws) (joinWords (flavourize fl ws)) := by
  cases fl with
  | Prepended =>
    show substrP (joinWords ws) (joinWords ("menos" :: ws))
    rw [joinWords, joinWords, List.filter_cons_of_pos rfl, joinSp_cons]
    split
    · rename_i hnil
      rw [hnil]
      exact substrP_empty _
    · exact substrP_appendL _ _
  | Appended =>
    show substrP (joinWords ws) (joinWords (ws ++ ["negativo"]))
    rw [joinWords, joinWords, List.filter_append]
    show substrP (joinSp (ws.filter (fun w => !(w == ""))))
      (joinSp (ws.filter (fun w => !(w == "")) ++ ["negativo"]))
    rw [joinSp_append_singleton]
    split
    · rename_i hnil
      rw [hnil]
      exact substrP_empty _
    · exact ⟨"", " " ++ "negativo", by simp [String.append_assoc]⟩
  | BelowZero =>
    show substrP (joinWords ws) (joinWords (ws ++ ["bajo cero"]))
    rw [joinWords, joinWords, List.filter_append]
    show substrP (joinSp (ws.filter (fun w => !(w == ""))))
      (joinSp (ws.filter (fun w => !(w == "")) ++ ["bajo cero"]))
    rw [joinSp_append_singleton]
    split
    · rename_i hnil
      rw [hnil]
      exact substrP_empty _
    · exact ⟨"", " " ++ "bajo cero", by simp [String.append_assoc]⟩

/-- The decoration always leaves the undecorated join inside the result:
unfiltered join (float path). -/
theorem joinSp_flavour_substr (fl : NegativeFlavour) (ws : List String)
    (h : ws ≠ []) : substrP (joinSp ws) (joinSp (flavourize fl ws)) := by
  cases fl with
  | Prepended =>
    show substrP (joinSp ws) (joinSp ("menos" :: ws))
    rw [joinSp_cons, if_neg h]
    exact substrP_appendL _ _
  | Appended =>
    show substrP (joinSp ws) (joinSp (ws ++ ["negativo"]))
    rw [joinSp_append_singleton, if_neg h]
    exact ⟨"", " " ++ "negativo", by simp [String.append_assoc]⟩
  | BelowZero =>
    show substrP (joinSp ws) (joinSp (ws ++ ["bajo cero"]))
    rw [joinSp_append_singleton, if_neg h]
    exact ⟨"", " " ++ "bajo cero", by simp [String.append_assoc]⟩

/-- The default Spanish configuration (`Spanish::default()`). -/
def esDefault : Spanish := {}

/-! ### Claim C2: singular versus plural scale names -/

/-- C2 counterexample: the claim predicts the plural scale name whenever any
lower group is nonzero, but at 1,000,001 the million group has value 1 with
zero immediately-higher group, so the code emits the singular `millón` even
though the lowest group (value 1) is nonzero; the full conversion is
`un millón uno`, not `un millones uno`. -/
theorem c2_plural_claim_counterexample :
    split_thousands 1000001 = [1, 0, 1] ∧
    cardinalChunk esDefault [1, 0, 1] 2 = .ok ["un", "millón"] ∧
    (1 : Nat) ≠ 0 ∧
    ("millón" : String) ≠ "millones" ∧
    int_to_cardinal esDefault 1000001 = .ok "un millón uno" :=
  ⟨rfl, rfl, by decide, by decide, rfl⟩

/-- C2 amended: at every triplet position `i > 0` whose scale name is emitted
and fits the scale table, the plural scale name is selected exactly when the
group's value is greater than 1 or the immediately more-significant
(adjacent higher) group is nonzero; otherwise the singular name is
selected. -/
theorem c2_plural_scale_name_selection (es : Spanish) (ts : List Nat) (i : Nat)
    (hi : i ≠ 0) (hmi : milliardIndex i ≤ 21)
    (hemit : ts.getD i 0 ≠ 0 ∨ (ts.getD (i + 1) 0 ≠ 0 ∧ 1 < milliardIndex i)) :
    cardinalChunk es ts i =
      .ok (subThousandWords es i (ts.getD i 0) ++
        [if 1 < ts.getD i 0 ∨ 0 < ts.getD (i + 1) 0
         then MILLARES.getD (milliardIndex i) ""
         else MILLAR.getD (milliardIndex i) ""]) := by
  unfold cardinalChunk
  rw [if_neg hi]
  simp only [MILLAR_SIZE]
  rw [if_pos hemit, if_neg (by omega)]

/-- C2 amended, witnessed at the million position of 1,000,000. -/
theorem c2_plural_scale_name_selection_witness :
    cardinalChunk esDefault [0, 0, 1] 2 = .ok ["un", "millón"] :=
  c2_plural_scale_name_selection esDefault [0, 0, 1] 2 (by decide) (by decide)
    (Or.inl (by decide))

/-! ### Claim C3: group value 1 above the ones position -/

/-- C3: a group of value exactly 1 at position `i > 0` contributes the empty
units word at thousand-like (odd) positions and the abbreviated `un` at
million-like (even) positions; in particular 1,000,000 reads `un millón` and
1,000,000,000 reads `mil millones`. -/
theorem c3_one_suppression (es : Spanish) (i : Nat) (hi : 0 < i) :
    (i % 2 = 1 → subThousandWords es i 1 = [""]) ∧
    (i % 2 = 0 → subThousandWords es i 1 = ["un"]) ∧
    int_to_cardinal esDefault 1000000 = .ok "un millón" ∧
    int_to_cardinal esDefault 1000000000 = .ok "mil millones" := by
  refine ⟨?_, ?_, rfl, rfl⟩
  · intro hodd
    simp [subThousandWords, hi, show ¬ i % 2 = 0 by omega, show i ≠ 0 by omega]
  · intro heven
    simp [subThousandWords, hi, heven, show i ≠ 0 by omega]

/-- C3, witnessed at the million (even) and thousand (odd) positions. -/
theorem c3_one_suppression_witness :
    subThousandWords esDefault 1 1 = [""] ∧ subThousandWords esDefault 2 1 = ["un"] :=
  ⟨(c3_one_suppression esDefault 1 (by decide)).1 rfl,
   (c3_one_suppression esDefault 2 (by decide)).2.1 rfl⟩

/-! ### Claim C4: totality below the scale bound, overflow above it -/

/-- C4: cardinal conversion of a non-negative integer succeeds exactly when
every referenced scale index fits the scale table, i.e. when the value is
below 1000^42 (so the highest group's milliard index is at most 21,
`vigintillones`); at or above that bound the assembly aborts with
`CannotConvert` and no partial string is returned. -/
theorem c4_totality_and_overflow (es : Spanish) (n : Nat) :
    (n < 1000 ^ 42 → ∃ s, to_cardinal es (.ofNat n) = .ok s) ∧
    (1000 ^ 42 ≤ n → to_cardinal es (.ofNat n) = .error .CannotConvert) := by
  have hcard : to_cardinal es (.ofNat n) = int_to_cardinal es (n : Int) := rfl
  constructor
  · intro h
    rw [hcard]
    exact int_to_cardinal_ok es n (by simpa using h)
  · intro h
    rw [hcard]
    exact int_to_cardinal_error es n (by simpa using h)

/-- C4, witnessed at 1000 (success) and 1000^42 (overflow). -/
theorem c4_totality_and_overflow_witness :
    (∃ s, to_cardinal esDefault (.ofNat 1000) = .ok s) ∧
    to_cardinal esDefault (.ofNat (1000 ^ 42)) = .error .CannotConvert :=
  ⟨(c4_totality_and_overflow esDefault 1000).1 (by norm_num),
   (c4_totality_and_overflow esDefault (1000 ^ 42)).2 (le_refl _)⟩

/-! ### Claim C6: years versus cardinals -/

/-- C6: on integer-valued numerals, a positive year reads exactly as its
cardinal, a negative year reads as the cardinal of its absolute value
followed by the fixed before-era suffix, and year zero is rejected as
unconvertible. -/
theorem c6_year_cardinal_relation (es : Spanish) (d : Decimal)
    (hint : fracZero d.fd = true) :
    (d.neg = false → 0 < d.ip →
      to_year es (.fin d) = to_cardinal es (.fin d)) ∧
    (d.neg = true → 0 < d.ip →
      to_year es (.fin d) =
        (to_cardinal es (Numeral.fin d).negate).map (fun s => s ++ " a. C.")) ∧
    (d.ip = 0 → to_year es (.fin d) = .error .CannotConvert) := by
  obtain ⟨neg, ip, fd⟩ := d
  replace hint : fracZero fd = true := hint
  have hfrac : ¬ ¬ (fracZero fd = true) := by simp [hint]
  refine ⟨?_, ?_, ?_⟩
  · intro hneg hip
    subst hneg
    replace hip : 0 < ip := hip
    simp only [to_year, to_cardinal]
    rw [if_neg hfrac, if_neg (by omega : ¬ ip = 0), if_pos hint]
    cases h : int_to_cardinal es (ip : Int) with
    | error e =>
      rw [show Decimal.intVal ⟨false, ip, fd⟩ = (ip : Int) from rfl, h]
      rfl
    | ok w =>
      rw [show Decimal.intVal ⟨false, ip, fd⟩ = (ip : Int) from rfl, h]
      show Except.ok (w ++ "") = Except.ok w
      rw [String.append_empty]
  · intro hneg hip
    subst hneg
    replace hip : 0 < ip := hip
    simp only [to_year, to_cardinal, Numeral.negate]
    rw [if_neg hfrac, if_neg (by omega : ¬ ip = 0)]
    rw [show fracZero (Decimal.mk true ip fd).fd = true from hint] at hfrac ⊢
    rw [if_pos rfl]
    cases h : int_to_cardinal es (ip : Int) with
    | error e =>
      rw [show Decimal.intVal ⟨!true, ip, fd⟩ = (ip : Int) from rfl, h]
      rfl
    | ok w =>
      rw [show Decimal.intVal ⟨!true, ip, fd⟩ = (ip : Int) from rfl, h]
      rfl
  · intro hip
    subst hip
    simp only [to_year]
    rw [if_neg hfrac]
    simp

/-- C6, witnessed at the years 2021, -2021 and 0. -/
theorem c6_year_cardinal_relation_witness :
    to_year esDefault (.fin ⟨false, 2021, []⟩) = to_cardinal esDefault (.fin ⟨false, 2021, []⟩) ∧
    to_year esDefault (.fin ⟨true, 2021, []⟩) =
      (to_cardinal esDefault (Numeral.fin ⟨true, 2021, []⟩).negate).map (fun s => s ++ " a. C.") ∧
    to_year esDefault (.fin ⟨false, 0, []⟩) = .error .CannotConvert :=
  ⟨(c6_year_cardinal_relation esDefault ⟨false, 2021, []⟩ rfl).1 rfl (by decide),
   (c6_year_cardinal_relation esDefault ⟨true, 2021, []⟩ rfl).2.1 rfl (by decide),
   (c6_year_cardinal_relation esDefault ⟨false, 0, []⟩ rfl).2.2 rfl⟩

/-! ### Claim C5: ordinal-register precondition errors -/

/-- C5 counterexample: the numeral -0.5 is non-integral, yet both ordinal
registers reject it with `NegativeOrdinal` — not the `FloatingOrdinal` the
claim assigns to every non-integral input — because the sign is tested before
integrality. -/
theorem c5_error_precedence_counterexample :
    fracZero [5] = false ∧
    to_ordinal esDefault (.fin ⟨true, 0, [5]⟩) = .error .NegativeOrdinal ∧
    to_ordinal_num esDefault (.fin ⟨true, 0, [5]⟩) = .error .NegativeOrdinal ∧
    Num2Err.NegativeOrdinal ≠ Num2Err.FloatingOrdinal :=
  ⟨rfl, rfl, rfl, by decide⟩

/-- C5 amended: in both ordinal registers the precondition checks run in the
source's precedence order — NaN gives `CannotConvert`; otherwise either
infinity gives `InfiniteOrdinal`; otherwise a negative numeral gives
`NegativeOrdinal`; otherwise a non-integral numeral gives
`FloatingOrdinal`. -/
theorem c5_ordinal_precondition_errors (es : Spanish) (x : Numeral) :
    (x = .nan →
      to_ordinal es x = .error .CannotConvert ∧
      to_ordinal_num es x = .error .CannotConvert) ∧
    (x = .posInf ∨ x = .negInf →
      to_ordinal es x = .error .InfiniteOrdinal ∧
      to_ordinal_num es x = .error .InfiniteOrdinal) ∧
    (∀ d : Decimal, x = .fin d → d.neg = true →
      to_ordinal es x = .error .NegativeOrdinal ∧
      to_ordinal_num es x = .error .NegativeOrdinal) ∧
    (∀ d : Decimal, x = .fin d → d.neg = false → fracZero d.fd = false →
      to_ordinal es x = .error .FloatingOrdinal ∧
      to_ordinal_num es x = .error .FloatingOrdinal) := by
  refine ⟨?_, ?_, ?_, ?_⟩
  · rintro rfl
    exact ⟨rfl, rfl⟩
  · rintro (rfl | rfl) <;> exact ⟨rfl, rfl⟩
  · rintro d rfl hneg
    obtain ⟨neg, ip, fd⟩ := d
    replace hneg : neg = true := hneg
    subst hneg
    exact ⟨rfl, rfl⟩
  · rintro d rfl hneg hfrac
    obtain ⟨neg, ip, fd⟩ := d
    replace hneg : neg = false := hneg
    replace hfrac : fracZero fd = false := hfrac
    subst hneg
    constructor
    · simp only [to_ordinal]
      rw [if_neg (by simp), if_pos (by simp [hfrac])]
    · simp only [to_ordinal_num]
      rw [if_neg (by simp), if_pos (by simp [hfrac])]

/-- C5 amended, witnessed at NaN, both infinities, -0.5 and 0.5. -/
theorem c5_ordinal_precondition_errors_witness :
    to_ordinal esDefault .nan = .error .CannotConvert ∧
    to_ordinal esDefault .posInf = .error .InfiniteOrdinal ∧
    to_ordinal_num esDefault .negInf = .error .InfiniteOrdinal ∧
    to_ordinal esDefault (.fin ⟨true, 0, [5]⟩) = .error .NegativeOrdinal ∧
    to_ordinal_num esDefault (.fin ⟨false, 0, [5]⟩) = .error .FloatingOrdinal :=
  ⟨((c5_ordinal_precondition_errors esDefault .nan).1 rfl).1,
   ((c5_ordinal_precondition_errors esDefault .posInf).2.1 (Or.inl rfl)).1,
   ((c5_ordinal_precondition_errors esDefault .negInf).2.1 (Or.inr rfl)).2,
   ((c5_ordinal_precondition_errors esDefault _).2.2.1 ⟨true, 0, [5]⟩ rfl rfl).1,
   ((c5_ordinal_precondition_errors esDefault _).2.2.2 ⟨false, 0, [5]⟩ rfl rfl rfl).2⟩

/-! ### Totality of the ordinal assembly (used for claims C10 and C1) -/

theorem int_to_cardinal_ok_small (es : Spanish) (v : Nat) (hv : v < 1000) :
    ∃ s, int_to_cardinal es (v : Int) = .ok s := by
  refine int_to_cardinal_ok es (v : Int) ?_
  have h1 : (1000 : Nat) ≤ 1000 ^ 42 := by
    calc (1000 : Nat) = 1000 ^ 1 := (pow_one 1000).symm
    _ ≤ 1000 ^ 42 := Nat.pow_le_pow_right (by omega) (by omega)
  simpa using by omega

theorem fusedCardinal_ok (es : Spanish) (v : Nat) (hv : v < 1000) :
    ∃ s, fusedCardinal es v = .ok s := by
  obtain ⟨s, hs⟩ := int_to_cardinal_ok_small es v hv
  unfold fusedCardinal
  split
  · exact ⟨s ++ " ", by rw [hs]; rfl⟩
  · split
    · exact ⟨s, hs⟩
    · exact ⟨"", rfl⟩

theorem ordinalChunk_ok (es : Spanish) (ts : List Nat) (i : Nat)
    (hmi : milliardIndex i ≤ 21)
    (ht : ts.getD i 0 < 1000) (hlt : ts.getD (i + 1) 0 < 1000) :
    ∃ ws, ordinalChunk es ts i = .ok ws := by
  unfold ordinalChunk
  by_cases hi : i = 0
  · exact ⟨_, by rw [if_pos hi]⟩
  · rw [if_neg hi]
    simp only [MILLAR_SIZE]
    split
    · rw [if_neg (by omega)]
      split
      · exact ⟨[], rfl⟩
      · obtain ⟨tw, htw⟩ := fusedCardinal_ok es (ts.getD i 0) ht
        obtain ⟨lw, hlw⟩ := fusedCardinal_ok es (ts.getD (i + 1) 0) hlt
        rw [htw]
        by_cases hcond : milliardIndex i ≠ 1 ∧ 1 < i ∧ 0 < ts.getD (i + 1) 0
        · refine ⟨[lw ++ "mil" ++ tw ++ ordMILLARES.getD (milliardIndex i) "" ++
            genderSuffix es], ?_⟩
          rw [except_bind_ok, if_pos hcond, hlw]
          rfl
        · refine ⟨["" ++ tw ++ ordMILLARES.getD (milliardIndex i) "" ++
            genderSuffix es], ?_⟩
          rw [except_bind_ok, if_neg hcond]
          rfl
    · exact ⟨[], rfl⟩

theorem ordinalWords_ok (es : Spanish) (ts : List Nat)
    (hts : ∀ i, ts.getD i 0 < 1000) :
    ∀ k, k ≤ 42 → ∃ ws, ordinalWords es ts k = .ok ws := by
  intro k
  induction k with
  | zero => exact fun _ => ⟨[], rfl⟩
  | succ k ih =>
    intro hk
    obtain ⟨c, hc⟩ := ordinalChunk_ok es ts k (milliardIndex_le_of_le k (by omega))
      (hts k) (hts (k + 1))
    obtain ⟨ws, hws⟩ := ih (by omega)
    exact ⟨c ++ ws, by simp [ordinalWords, hc, hws, except_bind_ok]⟩

theorem to_ordinal_ok (es : Spanish) (n : Nat) (h : n < 1000 ^ 42) :
    ∃ s, to_ordinal es (.ofNat n) = .ok s := by
  obtain ⟨ws, hws⟩ := ordinalWords_ok es (split_thousands n)
    (fun i => split_thousands_getD_lt n i)
    (split_thousands n).length ((split_thousands_length_le 42 n).mpr h)
  refine ⟨joinWords ws, ?_⟩
  rw [show Numeral.ofNat n = Numeral.fin ⟨false, n, []⟩ from rfl]
  simp only [to_ordinal]
  rw [if_neg (by simp), if_neg (by simp [fracZero]), hws]
  rfl

/-! ### Claim C10: the ordinal-numeral register's i128 bottleneck -/

/-- C10: every non-negative integer above the i128 range but below the scale
table bound is rejected by `to_ordinal_num` with `CannotConvert`, although
both `to_cardinal` and `to_ordinal` still convert it. -/
theorem c10_ordinal_num_i128_bound (es : Spanish) (n : Nat)
    (hlow : 2 ^ 127 ≤ n) (hhigh : n < 1000 ^ 42) :
    to_ordinal_num es (.ofNat n) = .error .CannotConvert ∧
    (∃ s, to_cardinal es (.ofNat n) = .ok s) ∧
    (∃ s, to_ordinal es (.ofNat n) = .ok s) := by
  refine ⟨?_, ?_, to_ordinal_ok es n hhigh⟩
  · rw [show Numeral.ofNat n = Numeral.fin ⟨false, n, []⟩ from rfl]
    simp only [to_ordinal_num]
    rw [if_neg (by simp), if_neg (by simp [fracZero]),
      if_pos (show i128Max < n by unfold i128Max; omega)]
  · exact int_to_cardinal_ok es n (by simpa using hhigh)

/-- C10, witnessed at 2^127 (one above the i128 maximum). -/
theorem c10_ordinal_num_i128_bound_witness :
    to_ordinal_num esDefault (.ofNat (2 ^ 127)) = .error .CannotConvert ∧
    (∃ s, to_cardinal esDefault (.ofNat (2 ^ 127)) = .ok s) ∧
    (∃ s, to_ordinal esDefault (.ofNat (2 ^ 127)) = .ok s) :=
  c10_ordinal_num_i128_bound esDefault (2 ^ 127) (le_refl _) (by norm_num)

/-! ### Claim C8: placement of the negative decoration on fractional values -/

/-- C8 counterexample: converting -0.5 with the prepended style puts the
decoration word first — the output ends with the last fractional digit word
`cinco`, not with the decoration — contradicting the claim that the
decoration trails the fractional expansion for every style. -/
theorem c8_decoration_counterexample :
    to_cardinal { neg_flavour := .Prepended } (.fin ⟨true, 0, [5]⟩) =
      .ok "menos cero punto cinco" ∧
    strEndsWith "menos cero punto cinco" "menos" = false ∧
    strEndsWith "menos cero punto cinco" "cinco" = true :=
  ⟨rfl, rfl, rfl⟩

/-- C8 amended: on a negative non-integral numeral, the appended and
below-zero styles append the decoration word after the full fractional
expansion, while the prepended style puts it before the entire output. -/
theorem c8_decoration_placement (es : Spanish) (d : Decimal) (w : String)
    (hneg : d.neg = true) (hfrac : fracZero d.fd = false)
    (hint : int_to_cardinal es (d.ip : Int) = .ok w) :
    to_cardinal es (.fin d) =
      .ok (match es.neg_flavour with
           | .Prepended =>
             "menos" ++ " " ++ joinSp (w :: es.decimal_char.toWord :: fracWords d.fd)
           | .Appended =>
             joinSp (w :: es.decimal_char.toWord :: fracWords d.fd) ++ " " ++ "negativo"
           | .BelowZero =>
             joinSp (w :: es.decimal_char.toWord :: fracWords d.fd) ++ " " ++ "bajo cero") := by
  obtain ⟨neg, ip, fd⟩ := d
  replace hneg : neg = true := hneg
  replace hfrac : fracZero fd = false := hfrac
  replace hint : int_to_cardinal es (ip : Int) = .ok w := hint
  subst hneg
  simp only [to_cardinal]
  rw [if_neg (by simp [hfrac])]
  simp only [float_to_cardinal]
  rw [hint, except_bind_ok, hfrac]
  cases hfl : es.neg_flavour with
  | Prepended =>
    show Except.ok (joinSp ("menos" :: w :: es.decimal_char.toWord :: fracWords fd)) = _
    rw [joinSp_cons_cons]
  | Appended =>
    show Except.ok (joinSp ((w :: es.decimal_char.toWord :: fracWords fd) ++ ["negativo"])) = _
    rw [joinSp_append_singleton, if_neg (by simp)]
  | BelowZero =>
    show Except.ok (joinSp ((w :: es.decimal_char.toWord :: fracWords fd) ++ ["bajo cero"])) = _
    rw [joinSp_append_singleton, if_neg (by simp)]

/-- C8 amended, witnessed at -0.5 in every style. -/
theorem c8_decoration_placement_witness :
    to_cardinal { neg_flavour := .Prepended } (.fin ⟨true, 0, [5]⟩) =
      .ok ("menos" ++ " " ++ joinSp ["cero", "punto", "cinco"]) ∧
    to_cardinal { neg_flavour := .Appended } (.fin ⟨true, 0, [5]⟩) =
      .ok (joinSp ["cero", "punto", "cinco"] ++ " " ++ "negativo") ∧
    to_cardinal { neg_flavour := .BelowZero } (.fin ⟨true, 0, [5]⟩) =
      .ok (joinSp ["cero", "punto", "cinco"] ++ " " ++ "bajo cero") :=
  ⟨c8_decoration_placement { neg_flavour := .Prepended } ⟨true, 0, [5]⟩ "cero" rfl rfl rfl,
   c8_decoration_placement { neg_flavour := .Appended } ⟨true, 0, [5]⟩ "cero" rfl rfl rfl,
   c8_decoration_placement { neg_flavour := .BelowZero } ⟨true, 0, [5]⟩ "cero" rfl rfl rfl⟩

/-! ### Claim C9: the negated conversion contains the positive one -/

/-- C9 counterexample: the claim quantifies over every numeral whose
conversion succeeds, but for the (negative) numeral -1 the conversion of its
negation is `uno`, which cannot contain the nine-character `menos uno`. -/
theorem c9_substring_counterexample :
    to_cardinal esDefault (.fin ⟨true, 1, []⟩) = .ok "menos uno" ∧
    to_cardinal esDefault (Numeral.fin ⟨true, 1, []⟩).negate = .ok "uno" ∧
    ¬ substrP "menos uno" "uno" :=
  ⟨rfl, rfl, fun h => absurd (substrP_length_le h) (by decide)⟩

theorem int_to_cardinal_neg_substr (es : Spanish) (n : Nat) (s : String)
    (h : int_to_cardinal es (n : Int) = .ok s) :
    ∃ t, int_to_cardinal es (-(n : Int)) = .ok t ∧ substrP s t := by
  by_cases hn : n = 0
  · subst hn
    rw [show int_to_cardinal es ((0 : Nat) : Int) = .ok "cero" from rfl] at h
    injection h with h
    subst h
    refine ⟨"cero", ?_, substrP_refl _⟩
    rw [show -((0 : Nat) : Int) = 0 from rfl]
    rfl
  · have hnz : ((n : Nat) : Int) ≠ 0 := by omega
    have hneg0 : -((n : Nat) : Int) ≠ 0 := by omega
    rw [int_to_cardinal, if_neg hnz] at h
    rw [int_to_cardinal, if_neg hneg0]
    have hna : (-((n : Nat) : Int)).natAbs = ((n : Nat) : Int).natAbs := by simp
    rw [hna]
    cases hcw : cardinalWords es (split_thousands ((n : Nat) : Int).natAbs)
        (split_thousands ((n : Nat) : Int).natAbs).length with
    | error e =>
      simp only [hcw, except_bind_error] at h
      exact absurd h (by simp)
    | ok ws =>
      simp only [hcw, except_bind_ok] at h ⊢
      rw [if_neg (by omega : ¬ ((n : Nat) : Int) < 0)] at h
      injection h with h
      subst h
      rw [if_pos (by omega : -((n : Nat) : Int) < 0)]
      exact ⟨joinWords (flavourize es.neg_flavour ws), rfl,
        joinWords_flavour_substr es.neg_flavour ws⟩

/-- C9 amended: for every configuration and every non-negative numeral whose
cardinal conversion succeeds, the cardinal of its negation contains that
conversion as a substring — under every negative-decoration style. -/
theorem c9_negation_contains_positive (es : Spanish) (x : Numeral) (s : String)
    (hneg : x.isNegative = false) (h : to_cardinal es x = .ok s) :
    ∃ t, to_cardinal es x.negate = .ok t ∧ substrP s t := by
  cases x with
  | nan => simp [to_cardinal] at h
  | posInf =>
    rw [show to_cardinal es .posInf = .ok "infinito" from rfl] at h
    injection h with h
    subst h
    show ∃ t, inf_to_cardinal es .negInf = .ok t ∧ _
    cases hfl : es.neg_flavour with
    | Prepended =>
      exact ⟨"menos infinito", by rw [inf_to_cardinal, hfl], ⟨"menos ", "", rfl⟩⟩
    | Appended =>
      exact ⟨"infinito negativo", by rw [inf_to_cardinal, hfl], ⟨"", " negativo", rfl⟩⟩
    | BelowZero =>
      exact ⟨"menos infinito", by rw [inf_to_cardinal, hfl], ⟨"menos ", "", rfl⟩⟩
  | negInf => simp [Numeral.isNegative] at hneg
  | fin d =>
    obtain ⟨neg, ip, fd⟩ := d
    replace hneg : neg = false := hneg
    subst hneg
    by_cases hfz : fracZero fd = true
    · rw [show to_cardinal es (.fin ⟨false, ip, fd⟩) =
          (if fracZero fd then int_to_cardinal es (ip : Int)
           else float_to_cardinal es ⟨false, ip, fd⟩) from rfl, if_pos hfz] at h
      obtain ⟨t, ht, hsub⟩ := int_to_cardinal_neg_substr es ip s h
      refine ⟨t, ?_, hsub⟩
      rw [show to_cardinal es (Numeral.fin ⟨false, ip, fd⟩).negate =
          (if fracZero fd then int_to_cardinal es (-(ip : Int))
           else float_to_cardinal es ⟨true, ip, fd⟩) from rfl, if_pos hfz]
      exact ht
    · rw [show to_cardinal es (.fin ⟨false, ip, fd⟩) =
          (if fracZero fd then int_to_cardinal es (ip : Int)
           else float_to_cardinal es ⟨false, ip, fd⟩) from rfl, if_neg hfz] at h
      simp only [float_to_cardinal] at h
      cases hic : int_to_cardinal es (ip : Int) with
      | error e =>
        rw [hic] at h
        simp only [except_bind_error] at h
        cases h
      | ok w =>
        simp only [hic, except_bind_ok] at h
        rw [if_neg hfz] at h
        injection h with h
        subst h
        refine ⟨joinSp (flavourize es.neg_flavour
          (w :: ([es.decimal_char.toWord] ++ fracWords fd))), ?_, ?_⟩
        · rw [show to_cardinal es (Numeral.fin ⟨false, ip, fd⟩).negate =
            (if fracZero fd then int_to_cardinal es (-(ip : Int))
             else float_to_cardinal es ⟨true, ip, fd⟩) from rfl, if_neg hfz]
          simp only [float_to_cardinal, hic, except_bind_ok]
          rw [if_neg hfz]
          rfl
        · exact joinSp_flavour_substr es.neg_flavour _ (by simp)

/-- C9 amended, witnessed at the numeral 1 with the default (prepended)
style. -/
theorem c9_negation_contains_positive_witness :
    ∃ t, to_cardinal esDefault (Numeral.ofNat 1).negate = .ok t ∧ substrP "uno" t :=
  c9_negation_contains_positive esDefault (.ofNat 1) "uno" rfl rfl

/-! ### Claim C7: currency subunits truncate and never re-carry -/

/-- Unfolding of `to_currency` on a finite numeral with a nonzero
fraction. -/
theorem to_currency_fin_frac (es : Spanish) (cur : Currency) (d : Decimal)
    (hfrac : fracZero d.fd = false) :
    to_currency es (.fin d) cur = (do
      let intWords ← intCurrency es d.intVal cur
      let centWords ←
        (int_to_cardinal es (Int.tmod (mul100int d) 100)).map strip_uno_into_un
      if Int.tmod (mul100int d) 100 = 0 then .ok intWords
      else if d.ip = 0 then
        .ok (centWords ++ " " ++ centsName cur (Int.tmod (mul100int d) 100 != 1))
      else
        .ok (intWords ++ " con " ++ centWords ++ " " ++
          centsName cur (Int.tmod (mul100int d) 100 != 1))) := by
  simp only [to_currency]
  rw [if_neg (by simp [hfrac])]

/-- Truncated remainder of a negated natural cast by 100: the sign follows
the dividend. -/
theorem neg_tmod_hundred (m : Nat) :
    Int.tmod (-(m : Int)) 100 = -(Int.tmod (m : Int) 100) := by
  cases m with
  | zero => rfl
  | succ k => rfl

/-- C7: on every non-integral numeral the subunit value computed by
`to_currency` is `truncate(numeral * 100)` modulo 100 in the truncated-sign
(`rem`) sense: its magnitude is exactly the two-digit value of the first two
fractional digits — at most 99, truncated and never rounded up, with the
dividend's sign — and the integer phrase is built from the truncated integer
part unchanged (no re-carry); in particular `currency(1.999, USD)` reads 99
subunits with integer part 1. -/
theorem c7_currency_subunit_truncation (es : Spanish) (cur : Currency)
    (d : Decimal) (hwf : ∀ k ∈ d.fd, k < 10)
    (hfrac : fracZero d.fd = false) :
    (Int.tmod (mul100int d) 100 =
       (if d.neg then -((10 * d.fd.getD 0 0 + d.fd.getD 1 0 : Nat) : Int)
        else ((10 * d.fd.getD 0 0 + d.fd.getD 1 0 : Nat) : Int)) ∧
     10 * d.fd.getD 0 0 + d.fd.getD 1 0 ≤ 99) ∧
    (∀ iw, intCurrency es d.intVal cur = .ok iw →
      ∃ cw, int_to_cardinal es (Int.tmod (mul100int d) 100) = .ok cw ∧
        to_currency es (.fin d) cur =
          .ok (if Int.tmod (mul100int d) 100 = 0 then iw
               else if d.ip = 0 then
                 strip_uno_into_un cw ++ " " ++
                   centsName cur (Int.tmod (mul100int d) 100 != 1)
               else iw ++ " con " ++ strip_uno_into_un cw ++ " " ++
                 centsName cur (Int.tmod (mul100int d) 100 != 1))) ∧
    to_currency esDefault (.fin ⟨false, 1, [9, 9, 9]⟩) .USD =
      .ok "un dólar estadounidense con noventa y nueve centavos" := by
  have hD : ∀ i, d.fd.getD i 0 < 10 := by
    intro i
    rcases Nat.lt_or_ge i d.fd.length with hlen | hlen
    · rw [List.getD_eq_getElem d.fd 0 hlen]
      exact hwf _ (List.getElem_mem hlen)
    · rw [List.getD_eq_default d.fd 0 hlen]
      omega
  have hc99 : 10 * d.fd.getD 0 0 + d.fd.getD 1 0 ≤ 99 := by
    have := hD 0
    have := hD 1
    omega
  have hmod : (100 * d.ip + 10 * d.fd.getD 0 0 + d.fd.getD 1 0) % 100 =
      10 * d.fd.getD 0 0 + d.fd.getD 1 0 := by omega
  have htmodNat :
      Int.tmod ((100 * d.ip + 10 * d.fd.getD 0 0 + d.fd.getD 1 0 : Nat) : Int) 100 =
        ((10 * d.fd.getD 0 0 + d.fd.getD 1 0 : Nat) : Int) := by
    show (((100 * d.ip + 10 * d.fd.getD 0 0 + d.fd.getD 1 0) % 100 : Nat) : Int) =
      ((10 * d.fd.getD 0 0 + d.fd.getD 1 0 : Nat) : Int)
    exact congrArg (fun k : Nat => (k : Int)) hmod
  have hm : mul100int d =
      (if d.neg then -((100 * d.ip + 10 * d.fd.getD 0 0 + d.fd.getD 1 0 : Nat) : Int)
       else ((100 * d.ip + 10 * d.fd.getD 0 0 + d.fd.getD 1 0 : Nat) : Int)) := rfl
  have htmod : Int.tmod (mul100int d) 100 =
      (if d.neg then -((10 * d.fd.getD 0 0 + d.fd.getD 1 0 : Nat) : Int)
       else ((10 * d.fd.getD 0 0 + d.fd.getD 1 0 : Nat) : Int)) := by
    rw [hm]
    cases hn : d.neg
    · simpa using htmodNat
    · simp only [if_pos trivial]
      rw [neg_tmod_hundred]
      exact congrArg Neg.neg htmodNat
  have h1 : (1000 : Nat) ≤ 1000 ^ 42 := by
    calc (1000 : Nat) = 1000 ^ 1 := (pow_one 1000).symm
    _ ≤ 1000 ^ 42 := Nat.pow_le_pow_right (by omega) (by omega)
  have habs : (Int.tmod (mul100int d) 100).natAbs =
      10 * d.fd.getD 0 0 + d.fd.getD 1 0 := by
    rw [htmod]
    cases d.neg
    · rw [if_neg (by simp)]
      omega
    · rw [if_pos rfl]
      omega
  have hbound : (Int.tmod (mul100int d) 100).natAbs < 1000 ^ 42 := by
    rw [habs]
    omega
  refine ⟨⟨htmod, hc99⟩, ?_, rfl⟩
  intro iw hiw
  obtain ⟨cw, hcw⟩ := int_to_cardinal_ok es (Int.tmod (mul100int d) 100) hbound
  refine ⟨cw, hcw, ?_⟩
  rw [to_currency_fin_frac es cur d hfrac, hiw, except_bind_ok, hcw]
  simp only [Except.map, except_bind_ok]
  by_cases hc0 : Int.tmod (mul100int d) 100 = 0
  · rw [if_pos hc0, if_pos hc0]
  · rw [if_neg hc0, if_neg hc0]
    by_cases hip : d.ip = 0
    · rw [if_pos hip, if_pos hip]
    · rw [if_neg hip, if_neg hip]

/-- C7, witnessed at 1.999 US dollars (subunit 99) and at -1.5 US dollars
(truncated signed subunit -50). -/
theorem c7_currency_subunit_truncation_witness :
    Int.tmod (mul100int ⟨false, 1, [9, 9, 9]⟩) 100 = ((10 * 9 + 9 : Nat) : Int) ∧
    to_currency esDefault (.fin ⟨false, 1, [9, 9, 9]⟩) .USD =
      .ok "un dólar estadounidense con noventa y nueve centavos" ∧
    Int.tmod (mul100int ⟨true, 1, [5]⟩) 100 = -((10 * 5 + 0 : Nat) : Int) :=
  ⟨(c7_currency_subunit_truncation esDefault .USD ⟨false, 1, [9, 9, 9]⟩
      (by decide) rfl).1.1,
   (c7_currency_subunit_truncation esDefault .USD ⟨false, 1, [9, 9, 9]⟩
      (by decide) rfl).2.2,
   (c7_currency_subunit_truncation esDefault .USD ⟨true, 1, [5]⟩
      (by decide) rfl).1.1⟩

/-! ### Claim C1: cross-scale fusion in the ordinal register -/

/-- C1: when a named-unit (even, at least 2) scale position is rendered by
`to_ordinal` and its thousand-like companion group (the adjacent higher
group) is nonzero, the companion's cardinal word is fused as a prefix onto
the scale stem with no intervening space — empty for the value 1, bare for
2..9, and with a space inserted after the cardinal when the value is 10 or
more — and then the group's own fused cardinal and the named unit's ordinal
stem follow; in particular `ordinal(1000)` is the bare `milésimo` and
`ordinal(141100211021)` fuses a thousand-like prefix onto two successive
named-unit stems. -/
theorem c1_ordinal_cross_scale_fusion (es : Spanish) (ts : List Nat) (i : Nat)
    (hev : i % 2 = 0) (h2 : 2 ≤ i) (hmi : milliardIndex i ≤ 21)
    (hlast : ts.getD (i + 1) 0 ≠ 0)
    (ht : ts.getD i 0 < 1000) (hlt : ts.getD (i + 1) 0 < 1000) :
    (∃ cw tw, int_to_cardinal es ((ts.getD (i + 1) 0 : Nat) : Int) = .ok cw ∧
      fusedCardinal es (ts.getD i 0) = .ok tw ∧
      ordinalChunk es ts i =
        .ok [((if 10 ≤ ts.getD (i + 1) 0 then cw ++ " "
               else if 2 ≤ ts.getD (i + 1) 0 then cw else "") ++ "mil") ++
             tw ++ ordMILLARES.getD (milliardIndex i) "" ++ genderSuffix es]) ∧
    to_ordinal esDefault (.ofNat 1000) = .ok "milésimo" ∧
    to_ordinal esDefault (.ofNat 141100211021) =
      .ok "ciento cuarenta y uno milcien millonésimo doscientos once milésimo vigesimoprimero" := by
  refine ⟨?_, rfl, rfl⟩
  have hmieq : milliardIndex i = i / 2 + 1 := by
    unfold milliardIndex
    rw [if_pos hev]
  obtain ⟨cw, hcwb⟩ := int_to_cardinal_ok_small es (ts.getD (i + 1) 0) hlt
  obtain ⟨tw, htw⟩ := fusedCardinal_ok es (ts.getD i 0) ht
  refine ⟨cw, tw, hcwb, htw, ?_⟩
  unfold ordinalChunk
  rw [if_neg (by omega : ¬ i = 0)]
  simp only [MILLAR_SIZE]
  rw [if_pos (Or.inr ⟨hlast, by omega⟩), if_neg (by omega : ¬ (22 - 1 < milliardIndex i)),
    if_neg (by omega : ¬ (milliardIndex i = 1 ∧ 1 < i)), htw, except_bind_ok,
    if_pos ⟨by omega, by omega, Nat.pos_of_ne_zero hlast⟩]
  by_cases h10 : 10 ≤ ts.getD (i + 1) 0
  · have hfc : fusedCardinal es (ts.getD (i + 1) 0) = .ok (cw ++ " ") := by
      unfold fusedCardinal
      rw [if_pos h10, hcwb]
      rfl
    rw [hfc, if_pos h10]
    rfl
  · rw [if_neg h10]
    by_cases h2' : 2 ≤ ts.getD (i + 1) 0
    · have hfc : fusedCardinal es (ts.getD (i + 1) 0) = .ok cw := by
        unfold fusedCardinal
        rw [if_neg h10, if_pos h2']
        exact hcwb
      rw [hfc, if_pos h2']
      rfl
    · have hfc : fusedCardinal es (ts.getD (i + 1) 0) = .ok "" := by
        unfold fusedCardinal
        rw [if_neg h10, if_neg h2']
      rw [hfc, if_neg h2']
      rfl

/-- C1, witnessed at the billion position of 141,100,211,021 (companion
thousand-like group 141, named-unit group 100). -/
theorem c1_ordinal_cross_scale_fusion_witness :
    ∃ cw tw, int_to_cardinal esDefault ((141 : Nat) : Int) = .ok cw ∧
      fusedCardinal esDefault 100 = .ok tw ∧
      ordinalChunk esDefault [21, 211, 100, 141] 2 =
        .ok [((if 10 ≤ (141 : Nat) then cw ++ " "
               else if 2 ≤ (141 : Nat) then cw else "") ++ "mil") ++
             tw ++ ordMILLARES.getD (milliardIndex 2) "" ++ genderSuffix esDefault] :=
  (c1_ordinal_cross_scale_fusion esDefault [21, 211, 100, 141] 2 rfl
    (by decide) (by decide) (by decide) (by decide) (by decide)).1

end EsNum
